import Mathlib

/-!
Formal verification of the steady-state-minimum heartbeat example.

The repository consists of src/main.rs (argument parsing, graph building,
blocking until shutdown) and src/actor/heartbeat.rs (the heartbeat actor's
run loop).  The parts below embed these two files shallowly; operations of
the host framework (steady_state) that the repository only calls are
modelled separately, each with a doc comment naming its origin.
-/

namespace SteadyStateMinimum

/-- Modulus of Rust's u64 type, used by the heartbeat counter. -/
def U64_MOD : Nat := 2 ^ 64

/-- Command line arguments from src/main.rs (struct MainArg): `rate_ms` is the
milliseconds between heartbeats, `beats` the number of heartbeats before
shutdown.  Both are u64; modelled as Nat since no arithmetic on them wraps. -/
structure MainArg where
  rate_ms : Nat
  beats : Nat
deriving DecidableEq

/-- Parsing of the two CLI flags of src/main.rs lines 19-28: the rate flag
(short -r, long rate) has default value 1000 and the beats flag (short -b,
long beats) has default value 60; a flag that is present overrides its
default. -/
def parseMainArg (rate : Option Nat) (beats : Option Nat) : MainArg :=
  { rate_ms := rate.getD 1000, beats := beats.getD 60 }

/-- Dynamic shared argument value held by the graph.  main builds the graph
with a MainArg value (src/main.rs lines 48-53); an actor downcasts it at
runtime, which can fail when the stored value has another type. -/
inductive GraphArgs where
  | mainArg (a : MainArg)
  | otherType
deriving DecidableEq

/-- Downcast of the graph's shared argument value to MainArg, modelling
`actor.args::<crate::MainArg>()` at src/actor/heartbeat.rs line 30, which
yields an Option. -/
def argsDowncast : GraphArgs → Option MainArg
  | .mainArg a => some a
  | .otherType => none

/-- Liveness check of the actor loop.  The framework's `is_running` is not
part of this repository; it is modelled from the call-site documentation in
src/actor/heartbeat.rs lines 36-43: the check is true while no system-wide
shutdown has been requested, and once one has been requested, returning false
from the closure vetoes the shutdown for one more loop iteration, while
returning true lets the actor stop. -/
def is_running (shutdownRequested : Bool) (closure : Unit → Bool) : Bool :=
  !(shutdownRequested && closure ())

/-- Result of one invocation of the heartbeat actor's run: `ok` is a normal
return of Ok(()) carrying the logged counter values and the number of
request_shutdown calls; `panicked` is a u64 underflow of the counter under
checked arithmetic; `downcastPanic` is the expect on a failed args downcast
(src/actor/heartbeat.rs line 30). -/
inductive RunOutcome where
  | ok (log : List Nat) (shutdownCalls : Nat)
  | panicked (log : List Nat) (shutdownCalls : Nat)
  | downcastPanic
deriving DecidableEq

/-- Event loop of the heartbeat actor, src/actor/heartbeat.rs lines 43-70:
while `is_running(|| true)`, wait one period, log the current counter value,
decrement the u64 counter (checked arithmetic: decrementing 0 underflows,
which ends the run as a panic), then call request_shutdown when the
decremented counter equals 0. -/
def heartbeatLoop (count : Nat) (shutdownRequested : Bool) (log : List Nat)
    (shutdownCalls : Nat) : RunOutcome :=
  if is_running shutdownRequested (fun _ => true) then
    match count with
    | 0 => .panicked (log ++ [0]) shutdownCalls
    | c + 1 =>
        heartbeatLoop c (shutdownRequested || decide (c = 0)) (log ++ [c + 1])
          (shutdownCalls + if c = 0 then 1 else 0)
  else .ok log shutdownCalls

/-- Core behavior of the heartbeat actor (src/actor/heartbeat.rs lines 26-75):
the counter is initialized from args.beats (line 34) and the loop starts with
no shutdown requested, an empty log and no request_shutdown calls. -/
def internal_behavior (args : MainArg) : RunOutcome :=
  heartbeatLoop args.beats false [] 0

/-- Entry point of the actor (src/actor/heartbeat.rs lines 12-21 and 30):
downcast the graph's shared args, ending the run in a panic (the expect) when
the stored value is not a MainArg, and otherwise run the core behavior. -/
def runActor (g : GraphArgs) : RunOutcome :=
  match argsDowncast g with
  | none => .downcastPanic
  | some args => internal_behavior args

/-- Recognizer for the downcast-panic outcome. -/
def isDowncastPanic : RunOutcome → Bool
  | .downcastPanic => true
  | _ => false

/-- The descending list n, n-1, ..., 1 of counter values the heartbeat actor
logs when it starts from counter n. -/
def countdownList : Nat → List Nat
  | 0 => []
  | n + 1 => (n + 1) :: countdownList n

/-- Checked u64 decrement as performed by `*count.borrow_mut() -= 1` at
src/actor/heartbeat.rs line 60 in a build with overflow checks: decrementing
0 underflows, which is a panic (none). -/
def checkedDecU64 : Nat → Option Nat
  | 0 => none
  | c + 1 => some c

/-- Wrapping u64 decrement as performed by the same statement in a build with
modular arithmetic: subtraction of 1 modulo 2^64. -/
def wrappingDecU64 (c : Nat) : Nat := (c + (U64_MOD - 1)) % U64_MOD

/-- Whether one run invocation ended as a clean stop (returned Ok). -/
def actorStopped : RunOutcome → Bool
  | .ok _ _ => true
  | _ => false

/-- Static actor name from src/main.rs line 14. -/
def NAME_HEARTBEAT : String := "HEARTBEAT"

/-- Names of the actors that failed to reach the stopped state, from a list
pairing each actor name with whether it stopped within the grace period. -/
def stragglerNames (actors : List (String × Bool)) : List String :=
  (actors.filter fun a => !a.2).map fun a => a.1

/-- Modelled from the spec: `block_until_stopped` (framework code not under
src/, spec sections 4.2 and 6) returns Ok(()) exactly when every actor
reached the stopped state within the grace period, and otherwise an error
value enumerating the names of the actors that failed to stop. -/
def block_until_stopped (actors : List (String × Bool)) :
    Except (List String) Unit :=
  if actors.all (fun a => a.2) then .ok ()
  else .error (stragglerNames actors)

/-- Composition performed by main (src/main.rs lines 30-67): parse the CLI
arguments, build the graph holding them as the shared argument value with the
single HEARTBEAT actor, start it, and return the result of
block_until_stopped directly; the heartbeat actor stops within the grace
period exactly when its run returns Ok. -/
def mainResult (rate : Option Nat) (beats : Option Nat) :
    Except (List String) Unit :=
  let args := parseMainArg rate beats
  block_until_stopped
    [(NAME_HEARTBEAT, actorStopped (runActor (.mainArg args)))]

/-- Modelled from the spec: the decision the Supervisor takes on observing
the termination of an actor's execution unit (spec section 4.1 failure
semantics): a clean Ok return ends the actor, an error return or a panic is
logged as a fault and the actor's run is restarted from scratch. -/
inductive SupDecision where
  | actorDone
  | logFaultAndRestart
deriving DecidableEq

/-- Modelled from the spec: mapping from a run outcome to the Supervisor's
decision (spec section 4.1). -/
def superviseOutcome : RunOutcome → SupDecision
  | .ok _ _ => .actorDone
  | .panicked _ _ => .logFaultAndRestart
  | .downcastPanic => .logFaultAndRestart

/-- Modelled from the spec: a restart relaunches the actor's run from scratch
with fresh actor-local state over the unchanged shared configuration (spec
section 4.1); the k-th (re-)invocation of the heartbeat actor therefore
evaluates the same entry point on the same graph args, independent of k and
of any state a previous invocation left behind. -/
def invocationRun (g : GraphArgs) (_k : Nat) : RunOutcome := runActor g

/-- Initial counter value of one run invocation, read from the shared
configuration at src/actor/heartbeat.rs line 34. -/
def initialCounter (args : MainArg) : Nat := args.beats

/-- Modelled from the spec: phases of the Shutdown Coordinator's state
machine (spec section 4.4). -/
inductive CoordState where
  | idle
  | requested
  | effective
  | draining
  | stopped
deriving DecidableEq

/-- Position of a coordinator phase along the forward direction of the state
machine Idle, Requested, Effective, Draining, Stopped. -/
def CoordState.rank : CoordState → Nat
  | .idle => 0
  | .requested => 1
  | .effective => 2
  | .draining => 3
  | .stopped => 4

/-- Modelled from the spec: the transitions of the Shutdown Coordinator (spec
section 4.4): a first request below the barrier, the barrier being met, a
request that is immediately effective when no barrier is configured, the
grace-period drain, and all actors reaching completion. -/
inductive CoordStep : CoordState → CoordState → Prop where
  | request : CoordStep .idle .requested
  | barrierMet : CoordStep .requested .effective
  | immediate : CoordStep .idle .effective
  | drain : CoordStep .effective .draining
  | allStopped : CoordStep .draining .stopped

/-- The ShutdownSignal is tripped with its barrier satisfied once the machine
is at or past the Effective phase. -/
def CoordState.tripped (s : CoordState) : Prop :=
  CoordState.rank .effective ≤ s.rank

/-- Modelled from the spec: fire times of `wait_periodic` (spec section 4.3).
The next deadline is the last fire time plus the interval, not the current
time plus the interval. -/
def fireTime (start interval : Nat) : Nat → Nat
  | 0 => start
  | k + 1 => fireTime start interval k + interval

/-- Modelled from the spec: the instant a single periodic wait resolves — at
its deadline, or earlier at the stop request when one arrives during the wait
(spec section 4.3). -/
def waitResolve (deadline : Nat) (stopAt : Option Nat) : Nat :=
  match stopAt with
  | none => deadline
  | some s => min deadline s

/-- Once a shutdown has been requested, the loop condition with the always
true closure of src/actor/heartbeat.rs line 43 is false and the run returns
Ok with the state accumulated so far. -/
lemma heartbeatLoop_stop (count : Nat) (log : List Nat) (calls : Nat) :
    heartbeatLoop count true log calls = .ok log calls := by
  rw [heartbeatLoop.eq_def]
  simp [is_running]

/-- With no shutdown requested and counter 0, the iteration logs 0 and the
decrement underflows. -/
lemma heartbeatLoop_zero (log : List Nat) (calls : Nat) :
    heartbeatLoop 0 false log calls = .panicked (log ++ [0]) calls := by
  rw [heartbeatLoop.eq_def]
  simp [is_running]

/-- One iteration from a positive counter: log the current value, decrement,
and request shutdown exactly when the decremented value is 0. -/
lemma heartbeatLoop_succ (c : Nat) (log : List Nat) (calls : Nat) :
    heartbeatLoop (c + 1) false log calls =
      heartbeatLoop c (decide (c = 0)) (log ++ [c + 1])
        (calls + if c = 0 then 1 else 0) := by
  rw [heartbeatLoop.eq_def]
  simp [is_running]

/-- From any positive counter c + 1 with no shutdown requested, the loop
appends the countdown c + 1, ..., 1 to the log, makes exactly one
request_shutdown call, and returns Ok. -/
lemma heartbeatLoop_pos (c : Nat) :
    ∀ log calls, heartbeatLoop (c + 1) false log calls =
      .ok (log ++ countdownList (c + 1)) (calls + 1) := by
  induction c with
  | zero =>
      intro log calls
      rw [heartbeatLoop_succ]
      simp [heartbeatLoop_stop, countdownList]
  | succ c ih =>
      intro log calls
      rw [heartbeatLoop_succ]
      simp only [Nat.succ_ne_zero, decide_eq_false_iff_not, not_false_eq_true,
        decide_eq_false, if_neg, Nat.add_zero]
      rw [ih]
      simp [countdownList, List.append_assoc]

/-- The countdown from n has exactly n entries. -/
lemma countdownList_length (n : Nat) : (countdownList n).length = n := by
  induction n with
  | zero => rfl
  | succ n ih => simp [countdownList, ih]

/-- Consecutive logged counter values decrease by exactly 1. -/
lemma countdownList_chain (n : Nat) :
    List.Chain' (fun a b => a = b + 1) (countdownList n) := by
  induction n with
  | zero => simp [countdownList]
  | succ n ih =>
      cases n with
      | zero => simp [countdownList]
      | succ m =>
          rw [show countdownList (m + 2) = (m + 2) :: countdownList (m + 1)
            from rfl]
          rw [show countdownList (m + 1) = (m + 1) :: countdownList m
            from rfl]
          rw [List.chain'_cons]
          exact ⟨rfl, ih⟩

/-- Every logged counter value is at least 1, so none of the decrements that
follow a logged value underflows and the counter never goes negative. -/
lemma countdownList_pos (n : Nat) : ∀ x ∈ countdownList n, 1 ≤ x := by
  induction n with
  | zero => simp [countdownList]
  | succ n ih =>
      intro x hx
      simp only [countdownList, List.mem_cons] at hx
      rcases hx with rfl | hx
      · omega
      · exact ih x hx

/-- C1: for every positive configured beats = N, one invocation of the
heartbeat actor's run logs exactly N heartbeat messages before requesting
shutdown, with the counter starting at N, strictly decreasing by 1 on each
iteration and never going negative (every logged value is at least 1 and no
decrement underflows); the run makes exactly one request_shutdown call and
returns Ok, and for rate_ms = 10, beats = 3 the logged values are 3, 2, 1
and the program exits with Ok(()). -/
theorem heartbeat_counts_down (rate N : Nat) (h : 1 ≤ N) :
    internal_behavior { rate_ms := rate, beats := N } =
      .ok (countdownList N) 1 ∧
    (countdownList N).length = N ∧
    (countdownList N).head? = some N ∧
    List.Chain' (fun a b => a = b + 1) (countdownList N) ∧
    (∀ x ∈ countdownList N, 1 ≤ x) ∧
    mainResult (some rate) (some N) = Except.ok () := by
  obtain ⟨M, rfl⟩ : ∃ M, N = M + 1 := ⟨N - 1, by omega⟩
  have h1 : internal_behavior { rate_ms := rate, beats := M + 1 } =
      .ok (countdownList (M + 1)) 1 := heartbeatLoop_pos M [] 0
  refine ⟨h1, countdownList_length _, rfl, countdownList_chain _,
    countdownList_pos _, ?_⟩
  simp [mainResult, parseMainArg, runActor, argsDowncast, h1, actorStopped,
    block_until_stopped, NAME_HEARTBEAT]

/-- C1 witness: the concrete scenario rate_ms = 10, beats = 3 logs 3, 2, 1,
makes one request_shutdown call and the program exits with Ok(()). -/
theorem heartbeat_counts_down_witness :
    1 ≤ 3 ∧
    internal_behavior { rate_ms := 10, beats := 3 } = .ok [3, 2, 1] 1 ∧
    mainResult (some 10) (some 3) = Except.ok () := by
  have h := heartbeat_counts_down 10 3 (by norm_num)
  exact ⟨by norm_num, h.1, h.2.2.2.2.2⟩

/-- C2, evaluated at the failing input: for beats = 0 the first iteration
logs 0 and then underflows the u64 counter without ever calling
request_shutdown, so the actor does not request shutdown on or before its
first iteration. -/
theorem beats_zero_no_shutdown :
    internal_behavior { rate_ms := 10, beats := 0 } = .panicked [0] 0 := by
  decide

/-- C3: the counter is initialized to args.beats and decremented once per
iteration before the zero test; for initial beats = 0 the first decrement of
0 underflows (none under checked arithmetic, 2^64 - 1 under modular
arithmetic), and the counter-equals-zero branch calling request_shutdown is
never reached from an initial value of 0 (the run ends with zero
request_shutdown calls). -/
theorem counter_underflow_beats_zero :
    (∀ args : MainArg, internal_behavior args =
        heartbeatLoop args.beats false [] 0) ∧
    (∀ c log calls, heartbeatLoop (c + 1) false log calls =
        heartbeatLoop c (decide (c = 0)) (log ++ [c + 1])
          (calls + if c = 0 then 1 else 0)) ∧
    checkedDecU64 0 = none ∧
    wrappingDecU64 0 = U64_MOD - 1 ∧
    internal_behavior { rate_ms := 1000, beats := 0 } = .panicked [0] 0 := by
  refine ⟨fun args => rfl, heartbeatLoop_succ, rfl, ?_, by decide⟩
  norm_num [wrappingDecU64, U64_MOD]

/-- C4 counterexample: at the concrete input where a global stop has been
requested and the actor's closure returns true (the closure of
src/actor/heartbeat.rs line 43), is_running returns false even though the
closure does not return false, refuting the claim that the result is false
only when the closure returns false. -/
theorem is_running_claim_false :
    is_running true (fun _ => true) = false ∧
    (fun _ : Unit => true) () = true :=
  ⟨rfl, rfl⟩

/-- C4 amended: is_running returns false exactly when a global stop has been
requested and the actor's closure returns true; with no stop requested it
returns true, and with the always true closure it is the negation of the
stop flag — so an actor whose closure returns true stops on the next check
after shutdown, while an actor whose closure returns false vetoes the stop
and may continue iterating. -/
theorem is_running_characterization :
    (∀ s c, is_running s c = false ↔ s = true ∧ c () = true) ∧
    (∀ c, is_running false c = true) ∧
    (∀ s, is_running s (fun _ => true) = !s) := by
  refine ⟨?_, fun c => rfl, fun s => by cases s <;> rfl⟩
  intro s c
  cases s <;> simp [is_running]

/-- C5: block_until_stopped returns Ok(()) exactly when every actor reached
the stopped state within the grace period; when at least one actor is still
running it returns an error enumerating the names of the actors that failed
to stop; and main returns the result of block_until_stopped directly as its
own result. -/
theorem block_until_stopped_spec :
    (∀ actors : List (String × Bool),
        block_until_stopped actors = .ok () ↔ ∀ a ∈ actors, a.2 = true) ∧
    (∀ actors : List (String × Bool), (∃ a ∈ actors, a.2 = false) →
        block_until_stopped actors = .error (stragglerNames actors)) ∧
    (∀ rate beats, mainResult rate beats =
        block_until_stopped
          [(NAME_HEARTBEAT,
            actorStopped (runActor (.mainArg (parseMainArg rate beats))))]) := by
  refine ⟨?_, ?_, fun rate beats => rfl⟩
  · intro actors
    by_cases h : actors.all (fun a => a.2)
    · simp only [block_until_stopped, h, if_pos]
      simp only [List.all_eq_true] at h
      simpa using h
    · simp only [block_until_stopped, h, if_neg, Bool.false_eq_true,
        not_false_eq_true]
      simp only [List.all_eq_true] at h
      constructor
      · intro hc
        cases hc
      · intro hall
        exact absurd (by simpa using hall) h
  · intro actors ⟨a, ha, hfalse⟩
    have h : actors.all (fun x => x.2) = false := by
      simp only [List.all_eq_false]
      exact ⟨a, ha, by simp [hfalse]⟩
    simp [block_until_stopped, h]

/-- C5 witness: with the single HEARTBEAT actor still running when the grace
period elapses, block_until_stopped returns the error enumerating it. -/
theorem block_until_stopped_spec_witness :
    block_until_stopped [(NAME_HEARTBEAT, false)] =
      .error [NAME_HEARTBEAT] := by
  have h := block_until_stopped_spec.2.1 [(NAME_HEARTBEAT, false)]
    ⟨(NAME_HEARTBEAT, false), by simp, rfl⟩
  simpa [stragglerNames] using h

/-- C6: the Supervisor restarts the actor's run exactly on the faulted
outcomes (an error return or a panic, never a clean Ok), every
(re-)invocation evaluates the same entry point over the unchanged shared
configuration, and each invocation re-initializes the counter from
args.beats, so a restart never inherits a prior run's in-progress counter
value. -/
theorem supervisor_restart_fresh :
    (∀ o, superviseOutcome o = .logFaultAndRestart ↔ actorStopped o = false) ∧
    (∀ g k j, invocationRun g k = invocationRun g j) ∧
    (∀ args k, invocationRun (.mainArg args) k =
        heartbeatLoop (initialCounter args) false [] 0) ∧
    (∀ args : MainArg, initialCounter args = args.beats) := by
  refine ⟨?_, fun g k j => rfl, fun args k => rfl, fun args => rfl⟩
  intro o
  cases o <;> simp [superviseOutcome, actorStopped]

/-- Every single transition of the Shutdown Coordinator strictly increases
the phase rank. -/
lemma coordStep_rank_lt {s t : CoordState} (h : CoordStep s t) :
    s.rank < t.rank := by
  cases h <;> decide

/-- Along any sequence of transitions the phase rank never decreases. -/
lemma coordReach_rank_le {s t : CoordState}
    (h : Relation.ReflTransGen CoordStep s t) : s.rank ≤ t.rank := by
  induction h with
  | refl => exact le_refl _
  | tail _ hstep ih => exact le_trans ih (le_of_lt (coordStep_rank_lt hstep))

/-- C7: the Shutdown Coordinator's state machine only moves forward: every
transition strictly increases the phase rank, rank never decreases along any
reachable sequence, once the signal is tripped with its barrier satisfied
(at or past Effective) it stays tripped, and no sequence of transitions
reverses an earlier transition. -/
theorem shutdown_coordinator_monotone :
    (∀ s t : CoordState, CoordStep s t → s.rank < t.rank) ∧
    (∀ s t : CoordState, Relation.ReflTransGen CoordStep s t →
        s.rank ≤ t.rank) ∧
    (∀ s t : CoordState, s.tripped → Relation.ReflTransGen CoordStep s t →
        t.tripped) ∧
    (∀ s t : CoordState, CoordStep s t →
        ¬ Relation.ReflTransGen CoordStep t s) := by
  refine ⟨fun s t h => coordStep_rank_lt h, fun s t h => coordReach_rank_le h,
    ?_, ?_⟩
  · intro s t hs hr
    exact le_trans hs (coordReach_rank_le hr)
  · intro s t hst hrev
    have h1 := coordStep_rank_lt hst
    have h2 := coordReach_rank_le hrev
    omega

/-- C7 witness: a request strictly advances the phase from Idle, and the
tripped signal stays tripped from Effective through Draining to Stopped. -/
theorem shutdown_coordinator_monotone_witness :
    CoordState.rank .idle < CoordState.rank .requested ∧
    CoordState.tripped .stopped := by
  have h := shutdown_coordinator_monotone
  refine ⟨h.1 _ _ CoordStep.request, ?_⟩
  exact h.2.2.1 .effective .stopped (le_refl _)
    (Relation.ReflTransGen.head CoordStep.drain
      (Relation.ReflTransGen.single CoordStep.allStopped))

/-- C8: wait_periodic computes each next deadline as the last fire time plus
the interval, so over K iterations with interval T the elapsed time is
exactly K times T (within one interval's tolerance of K times T with zero
drift), and a wait resolves early, at the stop request, when a stop is
requested during the wait. -/
theorem wait_periodic_drift_free :
    (∀ start T k, fireTime start T (k + 1) = fireTime start T k + T) ∧
    (∀ start T K, fireTime start T K = start + K * T) ∧
    (∀ start T K, fireTime start T K - start = K * T) ∧
    (∀ d s, s ≤ d → waitResolve d (some s) = s ∧ waitResolve d (some s) ≤ d) := by
  have h2 : ∀ start T K, fireTime start T K = start + K * T := by
    intro start T K
    induction K with
    | zero => simp [fireTime]
    | succ k ih =>
        rw [fireTime, ih]
        ring
  refine ⟨fun start T k => rfl, h2, fun start T K => by rw [h2]; omega, ?_⟩
  intro d s hs
  refine ⟨?_, ?_⟩
  · simp [waitResolve, min_eq_right hs]
  · simp [waitResolve, min_eq_right hs, hs]

/-- C8 witness: three periods of 10 starting at 0 elapse exactly 30, and a
wait with deadline 10 resolves early at a stop requested at 4. -/
theorem wait_periodic_drift_free_witness :
    fireTime 0 10 3 = 30 ∧ waitResolve 10 (some 4) = 4 := by
  have h := wait_periodic_drift_free
  exact ⟨h.2.1 0 10 3, (h.2.2.2 10 4 (by norm_num)).1⟩

/-- C9: the CLI surface consists of the two numeric flags, the heartbeat
interval in milliseconds with default 1000 and the heartbeat count before
shutdown with default 60; present flags override the defaults, and the
parsed values are the shared argument value of the graph that main blocks
on. -/
theorem cli_defaults :
    parseMainArg none none = { rate_ms := 1000, beats := 60 } ∧
    (∀ r b, parseMainArg (some r) (some b) = { rate_ms := r, beats := b }) ∧
    (∀ rate beats, (parseMainArg rate beats).rate_ms = rate.getD 1000 ∧
        (parseMainArg rate beats).beats = beats.getD 60) ∧
    (∀ rate beats, mainResult rate beats =
        block_until_stopped
          [(NAME_HEARTBEAT,
            actorStopped (runActor (.mainArg (parseMainArg rate beats))))]) :=
  ⟨rfl, fun _r _b => rfl, fun _rate _beats => ⟨rfl, rfl⟩,
    fun _rate _beats => rfl⟩

/-- The heartbeat loop itself never produces the downcast panic outcome. -/
lemma heartbeatLoop_ne_downcast (c : Nat) :
    ∀ s log calls, isDowncastPanic (heartbeatLoop c s log calls) = false := by
  induction c with
  | zero =>
      intro s log calls
      rw [heartbeatLoop.eq_def]
      cases s <;> simp [is_running, isDowncastPanic]
  | succ c ih =>
      intro s log calls
      rw [heartbeatLoop.eq_def]
      cases s
      · simpa [is_running] using ih _ _ _
      · simp [is_running, isDowncastPanic]

/-- C10: the actor's run ends in the downcast panic (the expect at
src/actor/heartbeat.rs line 30) exactly when the graph's shared argument
value is not a MainArg; when it is a MainArg the run proceeds as the normal
internal behavior, and in particular for a graph built from parsed CLI
arguments, as main builds it, the panic branch is unreachable. -/
theorem args_downcast_guard :
    (∀ g, runActor g = .downcastPanic ↔ argsDowncast g = none) ∧
    (∀ args : MainArg, runActor (.mainArg args) = internal_behavior args) ∧
    (∀ rate beats,
        isDowncastPanic (runActor (.mainArg (parseMainArg rate beats))) =
          false) := by
  refine ⟨?_, fun args => rfl, ?_⟩
  · intro g
    cases g with
    | mainArg a =>
        have hne : isDowncastPanic (internal_behavior a) = false :=
          heartbeatLoop_ne_downcast a.beats false [] 0
        refine iff_of_false ?_ (by simp [argsDowncast])
        intro hcontra
        rw [show internal_behavior a = runActor (.mainArg a) from rfl,
          hcontra] at hne
        simp [isDowncastPanic] at hne
    | otherType => simp [runActor, argsDowncast]
  · intro rate beats
    exact heartbeatLoop_ne_downcast (parseMainArg rate beats).beats false [] 0

end SteadyStateMinimum
